import Mathlib

/-!
Verification development for the `jsonschema_gentypes` schema-to-type-IR
translation engine (`src/jsonschema_gentypes/__init__.py`).

The Python source is shallowly embedded: JSON documents become the inductive
type `JVal`, Python `dict`s become ordered association lists with Python's
insertion-order update semantics, the `Type` class hierarchy becomes the
inductive type `PType`, and the recursive translation engine (`API.get_type`
and the `APIv4` handlers) becomes a family of mutually recursive, fuel-indexed
state-passing functions over `EngineState` (the engine's `ref_type` cache and
the resolver's scope stack).  Exceptions (`NotImplementedError`,
`AttributeError`, `KeyError`, `AssertionError`, `IndexError`, failed `$ref`
resolution) are modelled by the error type `Err`; running out of fuel is the
distinguished error `Err.fuelExhausted`, so divergence of the Python
recursion is observable as fuel exhaustion at every fuel.

A second, heap-based model (`DocHeap`) embeds the `if`/`then`/`else`
rewriting step of `API._get_type_internal` together with Python's object
aliasing, so that in-place mutation of the caller's schema document is
faithfully observable.
-/

/-- A JSON value: the values stored in a schema document.  Mirrors the JSON
data model used by the Python source (floats are not needed by any input
considered here and are omitted). -/
inductive JVal where
  | null
  | bool (b : Bool)
  | int (n : Int)
  | str (s : String)
  | arr (elems : List JVal)
  | obj (fields : List (String × JVal))
deriving Repr

/-- A Python `dict` with string keys, as an insertion-ordered association
list with unique keys. -/
abbrev JDict := List (String × JVal)

/-- `d[k]` lookup returning `none` when the key is absent. -/
def adictGet {α : Type} : List (String × α) → String → Option α
  | [], _ => none
  | kv :: rest, k => if kv.1 = k then some kv.2 else adictGet rest k

/-- `k in d`. -/
def adictHas {α : Type} (d : List (String × α)) (k : String) : Bool :=
  (adictGet d k).isSome

/-- `d[k] = v`: replaces the value in place when the key exists (keeping its
insertion position), appends otherwise — Python `dict` assignment. -/
def adictSet {α : Type} : List (String × α) → String → α → List (String × α)
  | [], k, v => [(k, v)]
  | kv :: rest, k, v => if kv.1 = k then (k, v) :: rest else kv :: adictSet rest k v

/-- `del d[k]`. -/
def adictDel {α : Type} : List (String × α) → String → List (String × α)
  | [], _ => []
  | kv :: rest, k => if kv.1 = k then adictDel rest k else kv :: adictDel rest k

/-- `d.update(other)`: Python `dict.update`, assigning `other`'s entries in
order. -/
def adictUpdate {α : Type} (d other : List (String × α)) : List (String × α) :=
  other.foldl (fun acc kv => adictSet acc kv.1 kv.2) d

/-- Delete several keys in order (the `for key in (...): del base_schema[key]`
loop of `_get_type_internal`). -/
def adictDelList {α : Type} (d : List (String × α)) (ks : List String) : List (String × α) :=
  ks.foldl (fun acc k => adictDel acc k) d

/-- Python truthiness of a JSON value (`bool(v)`). -/
def jTruthy : JVal → Bool
  | .null => false
  | .bool b => b
  | .int n => n != 0
  | .str s => s != ""
  | .arr xs => !xs.isEmpty
  | .obj fs => !fs.isEmpty

/-- Python `str(v)` for the scalar values that can appear where the source
stringifies a JSON value. -/
def pyStr : JVal → String
  | .null => "None"
  | .bool true => "True"
  | .bool false => "False"
  | .int n => toString n
  | .str s => s
  | .arr _ => ""
  | .obj _ => ""

/-- The Type IR node hierarchy of the source (class `Type` and subclasses).
`Type` is a reserved word in Lean, hence `PType`.  The mutable `_comments`
list of the Python base class is the last field of every constructor;
`set_comments` is the functional update `PType.setComments`. -/
inductive PType where
  | literalType (const : JVal) (comments : List String)
  | builtinType (nm : String) (comments : List String)
  | nativeType (nm : String) (package : String) (comments : List String)
  | combinedType (base : PType) (subTypes : List PType) (comments : List String)
  | typeAlias (nm : String) (subType : PType) (descriptions : List String) (comments : List String)
  | typeEnum (nm : String) (values : List JVal) (descriptions : List String) (comments : List String)
  | typedDictType (nm : String) (struct : List (String × PType)) (descriptions : List String)
      (comments : List String)
deriving Repr

/-- `Type.comments()` (reading; the lazy `[]` initialisation is the default
empty list). -/
def PType.comments : PType → List String
  | .literalType _ c => c
  | .builtinType _ c => c
  | .nativeType _ _ c => c
  | .combinedType _ _ c => c
  | .typeAlias _ _ _ c => c
  | .typeEnum _ _ _ c => c
  | .typedDictType _ _ _ c => c

/-- `Type.set_comments(comments)`. -/
def PType.setComments : PType → List String → PType
  | .literalType v _, c => .literalType v c
  | .builtinType n _, c => .builtinType n c
  | .nativeType n p _, c => .nativeType n p c
  | .combinedType b s _, c => .combinedType b s c
  | .typeAlias n s d _, c => .typeAlias n s d c
  | .typeEnum n v d _, c => .typeEnum n v d c
  | .typedDictType n s d _, c => .typedDictType n s d c

/-- `isinstance(t, NamedType)`: the named declaration forms (`TypeAlias`,
`TypeEnum`, `TypedDictType`). -/
def PType.isNamed : PType → Bool
  | .typeAlias _ _ _ _ => true
  | .typeEnum _ _ _ _ => true
  | .typedDictType _ _ _ _ => true
  | _ => false

/-- The hard failures the Python code can raise, plus fuel exhaustion (the
observable form of divergence of the Python recursion). -/
inductive Err where
  | fuelExhausted
  | notImplemented (msg : String)
  | assertionError
  | attributeError
  | keyError
  | typeError
  | indexError
  | refResolutionError
deriving Repr, DecidableEq

/-- Raise issues here (`ISSUE_URL` of the source). -/
def ISSUE_URL : String := "https://github.com/camptcamp/jsonschema-gentypes"

/-- `char_range(char1, char2)` of the source, as a list. -/
def charRange (c1 c2 : Char) : List Char :=
  (List.range (c2.toNat + 1 - c1.toNat)).map (fun i => Char.ofNat (c1.toNat + i))

/-- The authorised identifier characters of `get_name`. -/
def authorisedChar : List Char :=
  charRange 'a' 'z' ++ charRange 'A' 'Z' ++ charRange '0' '9'

/-- The Python keyword list that `get_name` suffixes with a filler word. -/
def pyKeywordList : List String :=
  ["and", "as", "assert", "break", "class", "continue", "def", "del", "elif",
   "else", "except", "false", "finally", "for", "from", "global", "if",
   "import", "in", "is", "lambda", "none", "nonlocal", "not", "or", "pass",
   "raise", "return", "true", "try", "while", "with", "yield"]

/-- ASCII `str.lower()`. -/
def pyLower (s : String) : String := String.mk (s.toList.map Char.toLower)

/-- ASCII `str.upper()`. -/
def pyUpper (s : String) : String := String.mk (s.toList.map Char.toUpper)

/-- ASCII letter test (the only cased characters that survive `get_name`'s
character filter). -/
def pyIsAlpha (c : Char) : Bool :=
  ('a' ≤ c && c ≤ 'z') || ('A' ≤ c && c ≤ 'Z')

/-- ASCII `str.title()`: a letter is uppercased when the previous character
is not a letter, lowercased otherwise; sufficient for the alphabet
`[a-zA-Z0-9 ]` that reaches it in `get_name`. -/
def pyTitle (s : String) : String :=
  String.mk ((s.toList.foldl
    (fun (p : List Char × Bool) c =>
      let c' := if pyIsAlpha c then (if p.2 then c.toLower else c.toUpper) else c
      (p.1 ++ [c'], pyIsAlpha c))
    ([], false)).1)

/-- Modelled from the spec: the external `unidecode` transliteration
("Transliterate to a plain alphanumeric representation").  The library is
the identity on the ASCII strings considered in this development. -/
def unidecode (s : String) : String := s

/-- `get_name(schema, proposed_name, upper)` of the source.  Python's
`IndexError` (indexing `name[0]` on an empty name), `AssertionError`
(`assert name is not None`) and the `TypeError` a non-string title would
raise inside `unidecode` become `Err` values. -/
def get_name (schema : Option JDict) (proposed_name : Option String) (upper : Bool) :
    Except Err String :=
  let hasTitle := match schema with
    | some d => adictHas d "title"
    | none => false
  let name? : Except Err (Option String) :=
    if hasTitle then
      match schema with
      | some d =>
        match adictGet d "title" with
        | some (.str s) => .ok (some s)
        | some .null => .ok none
        | some _ => .error .typeError
        | none => .ok none
      | none => .ok none
    else .ok proposed_name
  match name? with
  | .error e => .error e
  | .ok none => .error .assertionError
  | .ok (some nm0) =>
    let nm1 := unidecode nm0
    let nm2 := String.mk (nm1.toList.map (fun c => if authorisedChar.contains c then c else ' '))
    match nm2.toList with
    | [] => .error .indexError
    | c0 :: _ =>
      let nm3 := if (charRange '0' '9').contains c0 then "num " ++ nm2 else nm2
      let nm4 := if pyKeywordList.contains (pyLower nm3) then nm3 ++ " name" else nm3
      let pfx := if hasTitle then "" else "_"
      if upper then
        .ok (pfx ++ String.mk ((pyUpper nm4).toList.map (fun c => if c = ' ' then '_' else c)))
      else
        .ok (pfx ++ String.mk ((pyTitle nm4).toList.filter (fun c => c ≠ ' ')))

/-- The keys `get_description` never renders as `key: value` lines. -/
def descExcluded : List String :=
  ["title", "description", "$ref", "$schema", "$id", "const", "type", "items",
   "additionalProperties"]

/-- `isinstance(value, list) or isinstance(value, dict)` — the values
`get_description` skips. -/
def jIsContainer : JVal → Bool
  | .arr _ => true
  | .obj _ => true
  | _ => false

/-- `get_description(schema)` of the source: `title` and `description`
blank-line separated, then every other scalar-valued key rendered as
`key: value`, blank-line separated from the first block when both exist. -/
def get_description (fields : JDict) : List String :=
  let r0 : List String :=
    (["title", "description"].foldl
      (fun acc key =>
        match adictGet fields key with
        | some v => (if acc.isEmpty then acc else acc ++ [""]) ++ [pyStr v]
        | none => acc)
      [])
  (fields.foldl
    (fun (p : List String × Bool) kv =>
      if descExcluded.contains kv.1 || jIsContainer kv.2 then p
      else
        let res := if p.2 then (if p.1.isEmpty then p.1 else p.1 ++ [""]) else p.1
        (res ++ [kv.1 ++ ": " ++ pyStr kv.2], false))
    (r0, true)).1

/-- The shared mutable state of one engine instance: the `ref_type`
translation cache, the resolver's scope stack, and `trace`, an observation
log recording (in order) each `$ref` URI whose translation actually began,
i.e. each cache miss that descended into the referenced schema.  `trace` is
write-only instrumentation: no definition reads it. -/
structure EngineState where
  refType : List (String × PType)
  scopes : List String
  trace : List String
deriving Repr

/-- Engine computations: state passing plus the `Err` exceptions.  The state
component is returned on the error path too, because the Python engine
object retains its mutations when an exception propagates. -/
def EngineM (α : Type) : Type := EngineState → Except Err α × EngineState

/-- `pure` for `EngineM`. -/
def emPure {α : Type} (a : α) : EngineM α := fun st => (.ok a, st)

/-- `bind` for `EngineM`. -/
def emBind {α β : Type} (x : EngineM α) (f : α → EngineM β) : EngineM β := fun st =>
  match x st with
  | (.ok a, st') => f a st'
  | (.error e, st') => (.error e, st')

instance engineMonadInst : Monad EngineM where
  pure := emPure
  bind := emBind

/-- Raise an exception. -/
def throwE {α : Type} (e : Err) : EngineM α := fun st => (.error e, st)

/-- Lift a pure fallible computation. -/
def liftE {α : Type} (e : Except Err α) : EngineM α := fun st => (e, st)

/-- `resolver.push_scope(scope)` (appends to the resolver's scope stack). -/
def pushScope (s : String) : EngineM Unit := fun st =>
  (.ok (), { st with scopes := st.scopes ++ [s] })

/-- `resolver.pop_scope()`. -/
def popScope : EngineM Unit := fun st =>
  (.ok (), { st with scopes := st.scopes.dropLast })

/-- The engine's read-only collaborators: the resolver's document store
(modelled from the spec: `resolve(uri) -> (scope, schema)`) and the
`additional_properties` configuration (`True` iff it is
`AdditionalProperties.ALWAYS`). -/
structure Api where
  docs : List (String × (String × JVal))
  apAlways : Bool

/-- `schema.get("title", proposed_name)` when the title is a string. -/
def titleOr (fields : JDict) (pn : String) : String :=
  match adictGet fields "title" with
  | some (.str s) => s
  | _ => pn

/-- `APIv4.const`: a `Literal` wrapping the fixed value (`KeyError` when the
key is missing). -/
def constHandler (fields : JDict) : Except Err PType :=
  match adictGet fields "const" with
  | some v => .ok (.literalType v [])
  | none => .error .keyError

/-- `APIv4.enum`: `TypeEnum(get_name(schema, proposed_name), schema["enum"],
get_description(schema))`; the constructor's `assert len(values) > 0` is the
assertion error. -/
def enumHandler (fields : JDict) (pn : String) : Except Err PType :=
  match get_name (some fields) (some pn) false with
  | .error e => .error e
  | .ok nm =>
    match adictGet fields "enum" with
    | some (.arr vs) =>
      if vs.isEmpty then .error .assertionError
      else .ok (.typeEnum nm vs (get_description fields) [])
    | some _ => .error .typeError
    | none => .error .keyError

/-- `APIv4.default`: best-effort builtin from the runtime kind of the
default value (the Python loop tests `str`, `int`, `float`, `bool` in order
with no break, and `bool` is a subtype of `int`, so booleans end at `bool`),
falling back to `Any`, always with the two warning comments. -/
def defaultHandler (fields : JDict) : Except Err PType :=
  match adictGet fields "default" with
  | none => .error .keyError
  | some v =>
    let tname := match v with
      | .str _ => "str"
      | .int _ => "int"
      | .bool _ => "bool"
      | _ => "Any"
    .ok (.builtinType tname
      ["WARNING: `default` keyword not supported.",
       "See: https://github.com/python/mypy/issues/6131"])

/-- The handler methods of the draft-4 strategy that `get_type_handler` can
return (one per schema-`type` keyword plus the composition handlers). -/
inductive Handler where
  | ref
  | all_of
  | any_of
  | const
  | enum
  | boolean
  | object
  | array
  | string
  | number
  | integer
  | null
  | default
deriving Repr, DecidableEq

/-- The attribute table `getattr(self, schema_type)` consults, restricted to
the schema-type handler methods of `APIv4`. -/
def handlerNames : List (String × Handler) :=
  [("ref", .ref), ("all_of", .all_of), ("any_of", .any_of), ("const", .const),
   ("enum", .enum), ("boolean", .boolean), ("object", .object),
   ("array", .array), ("string", .string), ("number", .number),
   ("integer", .integer), ("null", .null), ("default", .default)]

/-- `schema_type.startswith("_")`. -/
def startsWithUnderscore (s : String) : Bool :=
  match s.toList with
  | c :: _ => c = '_'
  | [] => false

/-- `API.get_type_handler`: names starting with `_` raise `AttributeError`
("No way friend"); unknown names raise `NotImplementedError` with the issue
URL; otherwise the handler method is returned. -/
def get_type_handler (s : String) : Except Err Handler :=
  if startsWithUnderscore s then .error .attributeError
  else
    match adictGet handlerNames s with
    | some h => .ok h
    | none =>
      .error (.notImplemented
        ("Type `" ++ s ++ "` is not supported. If you think that this is an error, " ++
         "say something at " ++ ISSUE_URL))

/-- `API._resolve_ref`, as the merged mapping it returns: when `$ref` is
present the resolver dereferences it and the resolved content is merged onto
the mapping (the in-place effect of that merge on the caller's document is
modelled separately in `DocHeap`). -/
def resolveRefF (api : Api) (v : JVal) : Except Err JDict :=
  match v with
  | .obj fs =>
    match adictGet fs "$ref" with
    | some (.str r) =>
      match adictGet api.docs r with
      | some (_, .obj rf) => .ok (adictUpdate fs rf)
      | some (_, _) => .error .typeError
      | none => .error .refResolutionError
    | some _ => .error .typeError
    | none => .ok fs
  | _ => .error .attributeError

/-- The condition of `APIv4.array` attaching the tuple warning:
`{schema.get("minItems"), schema.get("maxItems")} - {None, len(items)}` is
non-empty, i.e. one of the two keys is present with a value different from
the arity (Python equates `True`/`False` with `1`/`0`, and a JSON `null`
value is Python `None`). -/
def notNoneNorLen (v? : Option JVal) (n : Nat) : Bool :=
  match v? with
  | none => false
  | some .null => false
  | some (.int m) => m != (n : Int)
  | some (.bool b) => (if b then (1 : Int) else 0) != (n : Int)
  | some _ => true

/-- The tuple-arity warning test of `APIv4.array` on a list-valued `items`
of length `n`. -/
def tupleWarn (fields : JDict) (n : Nat) : Bool :=
  notNoneNorLen (adictGet fields "minItems") n || notNoneNorLen (adictGet fields "maxItems") n

/-- The warning comment of `APIv4.array` for list `items` whose arity is not
pinned by `minItems`/`maxItems`. -/
def tupleWarnLines : List String :=
  ["WARNING: \x27items\x27: If list, must have minItems == maxItems.",
   "See: https://json-schema.org/understanding-json-schema/reference/array.html#tuple-validation"]

/-- The `required`-semantics warning of `APIv4.object`. -/
def requiredWarnLines : List String :=
  ["WARNING: The required are not correctly taken in account,",
   "See: https://www.python.org/dev/peps/pep-0655/"]

/-- The extra warning `APIv4.object` appends when it unions the struct with
an open mapping. -/
def mixWarnLines : List String :=
  ["",
   "WARNING: the Normally the types should be mised each other instead of Union.",
   "See: https://github.com/python/mypy/issues/6131"]

/-- The `allOf`-approximation warning of `APIv4.all_of`. -/
def allOfWarnLines : List String :=
  ["WARNING: PEP 544 does not support an Intersection type,",
   "so `allOf` is interpreted as a `Union` for now.",
   "See: https://github.com/python/typing/issues/213"]

/-- The forward-reference warning `APIv4.ref` attaches on the `#` self
reference. -/
def forwardRefWarnLines : List String :=
  ["WARNING: Forward references may not be supported.",
   "See: https://github.com/python/mypy/issues/731"]

/-- `schema.get("required", [])` followed by `set(...)`: the members a field
name is tested against (Python `set(str)` iterates characters; `set` of a
non-iterable raises `TypeError`). -/
def requiredList (fields : JDict) : Except Err (List JVal)
  := match adictGet fields "required" with
  | none => .ok []
  | some (.arr rs) => .ok rs
  | some (.str s) => .ok (s.toList.map (fun c => JVal.str (String.mk [c])))
  | some _ => .error .typeError

/-- `prop in required` for the `required` member set. -/
def inRequired (req : List JVal) (prop : String) : Bool :=
  req.any (fun v => match v with
    | .str s => s == prop
    | _ => false)

/-- `add_required` of `APIv4.object`: append a `"required"` comment
(blank-line separated when comments already exist). -/
def addRequired (t : PType) (prop : String) (req : List JVal) : PType :=
  if inRequired req prop then
    let c := t.comments
    t.setComments (if c.isEmpty then c ++ ["required"] else c ++ ["", "required"])
  else t

mutual

/-- `API.get_type` (lines 330-353): boolean schemas map to `Any`/`None`,
otherwise `_get_type_internal` runs and the node's description (title,
description and leftover scalar keys, merged with the node's own comments)
either wraps an anonymous node in a `TypeAlias` (when `auto_alias`) or is
attached as comments.  Non-dict, non-bool schemas hit `schema.get` in
`_get_type_internal` and raise `AttributeError`. -/
def get_type (api : Api) (fuel : Nat) (schema : JVal) (pn : String) (autoAlias : Bool) :
    EngineM PType :=
  match fuel with
  | 0 => throwE .fuelExhausted
  | n+1 =>
    match schema with
    | .bool true => emPure (.nativeType "Any" "typing" [])
    | .bool false => emPure (.builtinType "None" [])
    | .obj fields => fun st =>
      match get_type_internal api n fields pn st with
      | (.error e, st1) => (.error e, st1)
      | (.ok theType, st1) =>
        let additionalDescription := theType.comments
        let description0 := get_description fields
        let description :=
          (if ¬ description0.isEmpty ∧ ¬ additionalDescription.isEmpty
           then description0 ++ [""] else description0) ++ additionalDescription
        if ¬ theType.isNamed ∧ ¬ description.isEmpty then
          if autoAlias then
            match get_name (some fields) (some pn) false with
            | .ok nm => (.ok (.typeAlias nm theType description []), st1)
            | .error e => (.error e, st1)
          else (.ok (theType.setComments description), st1)
        else (.ok theType, st1)
    | _ => throwE .attributeError
termination_by structural fuel

/-- `API._get_type_internal` (lines 361-458): push the `$id` scope, then
dispatch in source order — `if`/`then`/`else` rewriting, `$ref`, `const`,
array-valued `type`, the no-`type` composition keywords, and only then the
scope pop before the single-string `type` dispatch or the commented `None`
fallback.  The early-return paths do not pop the pushed scope, exactly as in
the source. -/
def get_type_internal (api : Api) (fuel : Nat) (fields : JDict) (pn : String) :
    EngineM PType :=
  match fuel with
  | 0 => throwE .fuelExhausted
  | n+1 => do
    let scope := match adictGet fields "$id" with
      | some (.str s) => s
      | _ => ""
    if scope ≠ "" then pushScope scope
    let pn1 := titleOr fields pn
    if adictHas fields "if" then ifBranch api n fields pn1
    else if adictHas fields "$ref" then refHandler api n fields pn1
    else if adictHas fields "const" then liftE (constHandler fields)
    else
      match adictGet fields "type" with
      | some (.arr ts) => do
        let pn2 := titleOr fields pn1
        let schemaCopy := adictDel fields "title"
        let inner ← typeListTypes api n schemaCopy ts pn2
        emPure (.combinedType (.nativeType "Union" "typing" []) inner [])
      | none =>
        if adictHas fields "allOf" then
          match adictGet fields "allOf" with
          | some (.arr subs) => allOfHandler api n subs pn1
          | _ => throwE .typeError
        else if adictHas fields "anyOf" then
          match adictGet fields "anyOf" with
          | some (.arr subs) => anyOfHandler api n subs pn1
          | _ => throwE .typeError
        else if adictHas fields "oneOf" then
          match adictGet fields "oneOf" with
          | some (.arr subs) => anyOfHandler api n subs pn1
          | _ => throwE .typeError
        else if adictHas fields "enum" then liftE (enumHandler fields pn1)
        else if adictHas fields "default" then liftE (defaultHandler fields)
        else do
          if scope ≠ "" then popScope
          emPure (.builtinType "None" ["WARNING: we get an scheam without any type"])
      | some (.str s) => do
        if scope ≠ "" then popScope
        get_type_dispatch api n fields (.str s) pn1
      | some _ => do
        if scope ≠ "" then popScope
        throwE .assertionError
termination_by structural fuel

/-- The `if`/`then`/`else` rewriting of `_get_type_internal` (lines
369-397), as the values it computes: the base schema (the node minus
`if`/`then`/`else`/`title`/`description`) merged with the dereferenced
`then` (resp. `else`) branch, the `if` branch's `properties` merged into the
`then` branch's `properties`, and the two branches translated and joined as
a union.  (The in-place aliasing effects of these merges on the caller's
document are modelled by `DocHeap.ifThenElseBranchH`.) -/
def ifBranch (api : Api) (fuel : Nat) (fields : JDict) (pn : String) : EngineM PType :=
  match fuel with
  | 0 => throwE .fuelExhausted
  | n+1 => do
    let base := adictDelList fields ["if", "then", "else", "title", "description"]
    let thenRaw := (adictGet fields "then").getD (.obj [])
    let thenResolved ← liftE (resolveRefF api thenRaw)
    let then1 := adictUpdate base thenResolved
    let then2 := if adictHas then1 "properties" then then1
                 else adictSet then1 "properties" (.obj [])
    let thenProps ← (match adictGet then2 "properties" with
      | some (.obj tps) =>
        if tps.isEmpty then throwE .assertionError else emPure tps
      | some v => if jTruthy v then throwE .typeError else throwE .assertionError
      | none => throwE .keyError)
    let ifRaw := (adictGet fields "if").getD (.obj [])
    let ifResolved ← liftE (resolveRefF api ifRaw)
    let ifProps ← (match adictGet ifResolved "properties" with
      | some (.obj ips) =>
        if ips.isEmpty then throwE .assertionError else emPure ips
      | some v => if jTruthy v then throwE .typeError else throwE .assertionError
      | none => throwE .assertionError)
    let then3 := adictSet then2 "properties" (.obj (adictUpdate thenProps ifProps))
    let elseRaw := (adictGet fields "else").getD (.obj [])
    let elseResolved ← liftE (resolveRefF api elseRaw)
    let else1 := adictUpdate base elseResolved
    let t1 ← get_type api n (.obj then3) (pn ++ " then") true
    let t2 ← get_type api n (.obj else1) (pn ++ " else") true
    emPure (.combinedType (.nativeType "Union" "typing" []) [t1, t2] [])
termination_by structural fuel

/-- `API._get_type` (lines 460-484): when the schema also carries `enum` the
enum handler is dispatched; otherwise `get_type_handler` either yields the
handler named by the `type` value or raises, so the commented "No handler"
fallback below it is dead code.  A non-string `type` value raises
`AttributeError` inside `get_type_handler` (`schema_type.startswith`). -/
def get_type_dispatch (api : Api) (fuel : Nat) (fields : JDict) (schemaType : JVal)
    (pn : String) : EngineM PType :=
  match fuel with
  | 0 => throwE .fuelExhausted
  | n+1 =>
    let pn1 := titleOr fields pn
    if adictHas fields "enum" then
      match get_type_handler "enum" with
      | .ok h => applyHandler api n h fields pn1
      | .error e => throwE e
    else
      match schemaType with
      | .str s =>
        match get_type_handler s with
        | .ok h => applyHandler api n h fields pn1
        | .error e => throwE e
      | _ => throwE .attributeError
termination_by structural fuel

/-- Calling the handler method returned by `get_type_handler` with
`(schema, proposed_name)`.  `all_of`/`any_of` take a third argument in the
source, so reaching them through the two-argument dispatch is a Python
`TypeError`. -/
def applyHandler (api : Api) (fuel : Nat) (h : Handler) (fields : JDict) (pn : String) :
    EngineM PType :=
  match fuel with
  | 0 => throwE .fuelExhausted
  | n+1 =>
    match h with
    | .string => emPure (.builtinType "str" [])
    | .integer => emPure (.builtinType "int" [])
    | .boolean => emPure (.builtinType "bool" [])
    | .null => emPure (.builtinType "None" [])
    | .number => emPure (.combinedType (.nativeType "Union" "typing" [])
        [.builtinType "int" [], .builtinType "float" []] [])
    | .const => liftE (constHandler fields)
    | .enum => liftE (enumHandler fields pn)
    | .default => liftE (defaultHandler fields)
    | .object => objectHandler api n fields pn
    | .array => arrayHandler api n fields pn
    | .ref => refHandler api n fields pn
    | .all_of => throwE .typeError
    | .any_of => throwE .typeError
termination_by structural fuel

/-- `APIv4.object` (lines 544-603). -/
def objectHandler (api : Api) (fuel : Nat) (fields : JDict) (pn : String) : EngineM PType :=
  match fuel with
  | 0 => throwE .fuelExhausted
  | n+1 => do
    let name ← liftE (get_name (some fields) (some pn) false)
    let stdDict? ← (match adictGet fields "additionalProperties" with
      | some (.bool true) =>
        if api.apAlways then
          emPure (some (PType.combinedType (.nativeType "Dict" "typing" [])
            [.builtinType "str" [], .nativeType "Any" "typing" []] []))
        else emPure none
      | some (.obj apf) => do
        let sub ← get_type api n (.obj apf) (pn ++ " additionalProperties") true
        emPure (some (PType.combinedType (.nativeType "Dict" "typing" [])
          [.builtinType "str" [], sub] []))
      | _ => emPure none)
    let pn1 := titleOr fields pn
    let propCase : Option JDict ← (match adictGet fields "properties" with
      | some (.obj props) => emPure (if props.isEmpty then none else some props)
      | some v => if jTruthy v then throwE .attributeError else emPure none
      | none => emPure none)
    match propCase with
    | some props => do
      let req ← liftE (requiredList fields)
      let struct ← structFields api n props pn1 req
      let t0 : PType := .typedDictType
        (if stdDict?.isNone then name else name ++ "Typed")
        struct
        (if stdDict?.isNone then get_description fields else [])
        []
      match stdDict? with
      | some sd =>
        emPure ((PType.combinedType (.nativeType "Union" "typing" []) [sd, t0] []).setComments
          (requiredWarnLines ++ mixWarnLines))
      | none => emPure (t0.setComments requiredWarnLines)
    | none =>
      match stdDict? with
      | some sd => emPure sd
      | none => emPure (.combinedType (.nativeType "Dict" "typing" [])
          [.builtinType "str" [], .nativeType "Any" "typing" []] [])
termination_by structural fuel

/-- The field-by-field struct construction of `APIv4.object` (the dict
comprehension over `properties`, `auto_alias=False`, with `add_required`
marking required fields). -/
def structFields (api : Api) (fuel : Nat) (props : JDict) (pn : String) (req : List JVal) :
    EngineM (List (String × PType)) :=
  match fuel with
  | 0 => throwE .fuelExhausted
  | n+1 =>
    match props with
    | [] => emPure []
    | (prop, sub) :: rest => fun st =>
      match get_type api n sub (pn ++ " " ++ prop) false st with
      | (.error e, st1) => (.error e, st1)
      | (.ok t, st1) =>
        match structFields api n rest pn req st1 with
        | (.error e, st2) => (.error e, st2)
        | (.ok ts, st2) => (.ok ((prop, addRequired t prop req) :: ts), st2)
termination_by structural fuel

/-- `APIv4.array` (lines 605-633): `items: true` is list-of-any,
`items: false` raises, a list of items is a tuple with the arity warning
of `tupleWarn`, a JSON `null` or absent `items` is the commented `None`
node, and any other value is translated as the single item schema. -/
def arrayHandler (api : Api) (fuel : Nat) (fields : JDict) (pn : String) : EngineM PType :=
  match fuel with
  | 0 => throwE .fuelExhausted
  | n+1 =>
    match adictGet fields "items" with
    | some (.bool true) => emPure (.combinedType (.nativeType "List" "typing" [])
        [.nativeType "Any" "typing" []] [])
    | some (.bool false) => throwE (.notImplemented "\x22items\x22: false is not supported")
    | some (.arr xs) => fun st =>
      match getTypeList api n xs st with
      | (.error e, st1) => (.error e, st1)
      | (.ok inner, st1) =>
        if tupleWarn fields xs.length then
          (.ok (.combinedType (.nativeType "Tuple" "typing" []) inner tupleWarnLines), st1)
        else
          (.ok (.combinedType (.nativeType "Tuple" "typing" []) inner []), st1)
    | some .null => emPure (.builtinType "None" ["WARNING: we get an array without any items"])
    | none => emPure (.builtinType "None" ["WARNING: we get an array without any items"])
    | some v => fun st =>
      match get_type api n v (pn ++ " item") true st with
      | (.error e, st1) => (.error e, st1)
      | (.ok sub, st1) =>
        (.ok (.combinedType (.nativeType "List" "typing" []) [sub] []), st1)
termination_by structural fuel

/-- The per-item translations of a list-valued `items` (each item translated
with the default proposed name `"Base"` and default `auto_alias`). -/
def getTypeList (api : Api) (fuel : Nat) (xs : List JVal) : EngineM (List PType) :=
  match fuel with
  | 0 => throwE .fuelExhausted
  | n+1 =>
    match xs with
    | [] => emPure []
    | x :: rest => fun st =>
      match get_type api n x "Base" true st with
      | (.error e, st1) => (.error e, st1)
      | (.ok t, st1) =>
        match getTypeList api n rest st1 with
        | (.error e, st2) => (.error e, st2)
        | (.ok ts, st2) => (.ok (t :: ts), st2)
termination_by structural fuel

/-- The per-element translations of an array-valued `type`: each element
type dispatched against the title-stripped schema copy with the proposed
name `f"{proposed_name} {primitive_type}"`. -/
def typeListTypes (api : Api) (fuel : Nat) (schemaCopy : JDict) (ts : List JVal)
    (pn : String) : EngineM (List PType) :=
  match fuel with
  | 0 => throwE .fuelExhausted
  | n+1 =>
    match ts with
    | [] => emPure []
    | t :: rest => do
      let ty ← get_type_dispatch api n schemaCopy t (pn ++ " " ++ pyStr t)
      let tys ← typeListTypes api n schemaCopy rest pn
      emPure (ty :: tys)
termination_by structural fuel

/-- The indexed branch translations shared by `APIv4.all_of` and
`APIv4.any_of` (proposed names `f"{proposed_name} allof{i}"` resp.
`f"{proposed_name} anyof{i}"`; the `filter(lambda o: o is not None, ...)`
of the source never drops anything because `get_type` never returns
`None`). -/
def getTypeIndexed (api : Api) (fuel : Nat) (subs : List JVal) (pn tag : String) (i : Nat) :
    EngineM (List PType) :=
  match fuel with
  | 0 => throwE .fuelExhausted
  | n+1 =>
    match subs with
    | [] => emPure []
    | x :: rest => do
      let t ← get_type api n x (pn ++ tag ++ toString i) true
      let ts ← getTypeIndexed api n rest pn tag (i + 1)
      emPure (t :: ts)
termination_by structural fuel

/-- `APIv4.all_of`: union of the branches with the intersection-approximation
warning. -/
def allOfHandler (api : Api) (fuel : Nat) (subs : List JVal) (pn : String) : EngineM PType :=
  match fuel with
  | 0 => throwE .fuelExhausted
  | n+1 => do
    let inner ← getTypeIndexed api n subs pn " allof" 0
    emPure ((PType.combinedType (.nativeType "Union" "typing" []) inner []).setComments
      allOfWarnLines)
termination_by structural fuel

/-- `APIv4.any_of` (also used for `oneOf`): union of the branches. -/
def anyOfHandler (api : Api) (fuel : Nat) (subs : List JVal) (pn : String) : EngineM PType :=
  match fuel with
  | 0 => throwE .fuelExhausted
  | n+1 => do
    let inner ← getTypeIndexed api n subs pn " anyof" 0
    emPure (.combinedType (.nativeType "Union" "typing" []) inner [])
termination_by structural fuel

/-- `APIv4.ref` (lines 686-731): `#` is the special-cased self reference
(an empty object placeholder with the forward-reference warning, not
cached); any other URI is looked up in the `ref_type` cache first, and on a
miss the resolver dereferences it, the resolved scope is pushed, the merged
schema is translated (`trace` records this descent), the scope is popped on
both success and failure (the `try`/`finally`), and on success the produced
node is stored in the cache (for a truthy URI) before being returned. -/
def refHandler (api : Api) (fuel : Nat) (fields : JDict) (pn : String) : EngineM PType :=
  match fuel with
  | 0 => throwE .fuelExhausted
  | n+1 =>
    match adictGet fields "$ref" with
    | some (.str r) =>
      let fields1 := adictDel fields "$ref"
      if r = "#" then fun st =>
        match objectHandler api n [] (pn ++ " object") st with
        | (.error e, st1) => (.error e, st1)
        | (.ok t, st1) => (.ok (t.setComments forwardRefWarnLines), st1)
      else fun st =>
        match adictGet st.refType r with
        | some t => (.ok t, st)
        | none =>
          let st1 := { st with trace := st.trace ++ [r] }
          match adictGet api.docs r with
          | none => (.error .refResolutionError, st1)
          | some (scope, resolved) =>
            let st2 := { st1 with scopes := st1.scopes ++ [scope] }
            match resolved with
            | .obj rfields =>
              match get_type api n (.obj (adictUpdate fields1 rfields)) pn true st2 with
              | (.ok ty, st3) =>
                let st4 := { st3 with scopes := st3.scopes.dropLast }
                if r ≠ "" then
                  (.ok ty, { st4 with refType := adictSet st4.refType r ty })
                else (.ok ty, st4)
              | (.error e, st3) =>
                (.error e, { st3 with scopes := st3.scopes.dropLast })
            | _ => (.error .typeError, { st2 with scopes := st2.scopes.dropLast })
    | some _ => throwE .typeError
    | none => throwE .keyError
termination_by structural fuel

end

/-- The empty engine state of a freshly constructed engine (`API.__init__`:
empty `ref_type`, fresh resolver scope stack, empty observation log). -/
def st0 : EngineState := ⟨[], [], []⟩

/-- Run a translation with a freshly constructed engine. -/
def runFresh (api : Api) (schema : JVal) (pn : String) (fuel : Nat) :
    Except Err PType × EngineState :=
  get_type api fuel schema pn true st0

/-- An engine with no referenced documents and the default
`additional_properties` policy. -/
def api0 : Api := ⟨[], false⟩

/-- The string `TypeEnum.definition` interpolates for one enum value:
the value itself for a string, Python `str(value)` otherwise. -/
def enumValueStr : JVal → String
  | .str s => s
  | v => pyStr v

/-- The member identifier `TypeEnum.definition` synthesizes for one enum
value: `get_name({"title": value}, upper=True)` (with `str(value)` for
non-string values). -/
def enumMemberName (v : JVal) : Except Err String :=
  get_name (some [("title", JVal.str (enumValueStr v))]) none true

/-- One member line of `TypeEnum.definition`:
`f'    {get_name(...)} = "{value}"'` for strings,
`f'    {get_name(...)} = {value}'` otherwise. -/
def enumMemberLine (v : JVal) : Except Err String :=
  match enumMemberName v with
  | .error e => .error e
  | .ok nm =>
    match v with
    | .str s => .ok ("    " ++ nm ++ " = \x22" ++ s ++ "\x22")
    | _ => .ok ("    " ++ nm ++ " = " ++ pyStr v)

/-- Fallible map (the `for value in self.values` loop body, which can raise
through `get_name`). -/
def mapME {α β : Type} (f : α → Except Err β) : List α → Except Err (List β)
  | [] => .ok []
  | x :: xs =>
    match f x with
    | .error e => .error e
    | .ok y =>
      match mapME f xs with
      | .error e => .error e
      | .ok ys => .ok (y :: ys)

/-- `TypeEnum.definition` (lines 154-163), together with the constructor's
`assert len(values) > 0`: two leading blank lines, one `# `-prefixed line
per description, the `class {name}(Enum):` header, then one member line per
value in order. -/
def typeEnumDefinition (name : String) (values : List JVal) (descriptions : List String) :
    Except Err (List String) :=
  if values.isEmpty then .error .assertionError
  else
    match mapME enumMemberLine values with
    | .error e => .error e
    | .ok members =>
      .ok (["", ""] ++ descriptions.map (fun d => "# " ++ d) ++
           ["class " ++ name ++ "(Enum):"] ++ members)

/-- Translating the same schema twice, each run with a freshly constructed
engine (empty `ref_type` cache, fresh resolver scope stack) against the same
resolver contents. -/
def translateTwiceFresh (api : Api) (schema : JVal) (pn : String) (fuel : Nat) :
    (Except Err PType × EngineState) × (Except Err PType × EngineState) :=
  (get_type api fuel schema pn true st0, get_type api fuel schema pn true st0)

/-- A resolver document store with a two-document reference cycle:
URI `a` names a schema that is `{"$ref": "b"}` and URI `b` names a schema
that is `{"$ref": "a"}`. -/
def cyclicApi : Api :=
  ⟨[("a", ("sa", .obj [("$ref", .str "b")])), ("b", ("sb", .obj [("$ref", .str "a")]))], false⟩

namespace DocHeap

/-- A Python object-graph value: a scalar, or a reference to a shared
mutable `dict` living in the heap. -/
inductive HVal where
  | prim (v : JVal)
  | dictRef (addr : Nat)
deriving Repr

/-- A heap `dict`: insertion-ordered fields whose values may alias other
heap dicts. -/
abbrev HDict := List (String × HVal)

/-- The object heap: mutable `dict`s addressed by allocation order. -/
structure Heap where
  cells : List (Nat × HDict)
  next : Nat
deriving Repr

/-- Read the dict at an address. -/
def heapGet (h : Heap) (a : Nat) : Option HDict :=
  (h.cells.find? (fun c => c.1 == a)).map (fun c => c.2)

/-- Overwrite the dict at an address (in-place mutation of a shared
object). -/
def heapSet (h : Heap) (a : Nat) (d : HDict) : Heap :=
  { h with cells := h.cells.map (fun c => if c.1 = a then (a, d) else c) }

/-- Allocate a fresh dict (a `{}` literal). -/
def alloc (h : Heap) (d : HDict) : Nat × Heap :=
  (h.next, { cells := h.cells ++ [(h.next, d)], next := h.next + 1 })

/-- `API._resolve_ref` over the heap: when the dict at `a` carries `$ref`,
the resolved content (scalar fields from the document store) is merged into
that same dict in place — `schema.update(resolved)` mutates the caller's
object — and the same address is returned. -/
def resolveRefH (docs : List (String × HDict)) (h : Heap) (a : Nat) :
    Except Err (Nat × Heap) :=
  match heapGet h a with
  | none => .error .keyError
  | some d =>
    match adictGet d "$ref" with
    | some (.prim (.str r)) =>
      match adictGet docs r with
      | some rf => .ok (a, heapSet h a (adictUpdate d rf))
      | none => .error .refResolutionError
    | some _ => .error .typeError
    | none => .ok (a, h)

/-- Truthiness of a heap value for the two `assert`s of the `if` branch. -/
def hTruthy (h : Heap) : HVal → Bool
  | .prim v => jTruthy v
  | .dictRef a =>
    match heapGet h a with
    | some d => !d.isEmpty
    | none => false

/-- The `if`/`then`/`else` rewriting step of `API._get_type_internal`
(lines 369-389) over the object heap, stopping after both branch schemas
are built (the subsequent recursive translations do not touch the document
again).  Returns the addresses of the constructed `then` and `else` branch
schemas and the (possibly mutated) heap.  The assignments
`base_schema.update(schema)` and `then_schema.update(base_schema)` copy
dict *entries*, so nested dicts stay shared with the original document, and
`then_propoerties.update(if_properties)` therefore writes through to the
document's own `properties` dict when the `then` branch inherited it. -/
def ifThenElseBranchH (docs : List (String × HDict)) (h : Heap) (root : Nat) :
    Except Err (Nat × Nat × Heap) :=
  match heapGet h root with
  | none => .error .keyError
  | some d =>
    let base := adictDelList d ["if", "then", "else", "title", "description"]
    let (baseA, h) := alloc h base
    let (thenRawA, h) := match adictGet d "then" with
      | some (.dictRef ta) => (some ta, h)
      | some (.prim _) => (none, h)
      | none =>
        let (a, h) := alloc h []
        (some a, h)
    match thenRawA with
    | none => .error .typeError
    | some ta0 =>
      match resolveRefH docs h ta0 with
      | .error e => .error e
      | .ok (ta, h) =>
        match heapGet h ta, heapGet h baseA with
        | none, _ => .error .keyError
        | _, none => .error .keyError
        | some thenResolved, some baseD =>
          let thenD := adictUpdate baseD thenResolved
          let (thenD, h) :=
            if adictHas thenD "properties" then (thenD, h)
            else
              let (pa, h) := alloc h []
              (adictSet thenD "properties" (.dictRef pa), h)
          let (thenA, h) := alloc h thenD
          match adictGet thenD "properties" with
          | none => .error .keyError
          | some propsV =>
            if ¬ hTruthy h propsV then .error .assertionError
            else
              match propsV with
              | .prim _ => .error .typeError
              | .dictRef pa =>
                match heapGet h pa with
                | none => .error .keyError
                | some pd =>
                  let (ifRawA, h) := match adictGet d "if" with
                    | some (.dictRef ia) => (some ia, h)
                    | some (.prim _) => (none, h)
                    | none =>
                      let (a, h) := alloc h []
                      (some a, h)
                  match ifRawA with
                  | none => .error .typeError
                  | some ia0 =>
                    match resolveRefH docs h ia0 with
                    | .error e => .error e
                    | .ok (ia, h) =>
                      match heapGet h ia with
                      | none => .error .keyError
                      | some ifD =>
                        match adictGet ifD "properties" with
                        | none => .error .assertionError
                        | some ipV =>
                          if ¬ hTruthy h ipV then .error .assertionError
                          else
                            match ipV with
                            | .prim _ => .error .typeError
                            | .dictRef ipa =>
                              match heapGet h ipa with
                              | none => .error .keyError
                              | some ipd =>
                                let h := heapSet h pa (adictUpdate pd ipd)
                                let (elseRawA, h) := match adictGet d "else" with
                                  | some (.dictRef ea) => (some ea, h)
                                  | some (.prim _) => (none, h)
                                  | none =>
                                    let (a, h) := alloc h []
                                    (some a, h)
                                match elseRawA with
                                | none => .error .typeError
                                | some ea0 =>
                                  match resolveRefH docs h ea0 with
                                  | .error e => .error e
                                  | .ok (ea, h) =>
                                    match heapGet h ea, heapGet h thenA with
                                    | some elseResolved, some _ =>
                                      let elseD := adictUpdate base elseResolved
                                      let (elseA, h) := alloc h elseD
                                      .ok (thenA, elseA, h)
                                    | _, _ => .error .keyError

/-- The document `{"properties": {"x": true}, "if": {"properties":
{"a": true}}, "then": {}}` laid out as a Python object graph: the root at
address 0, its `properties` dict at address 1, the `if` subschema at
address 2 with its own `properties` dict at address 4, and the empty `then`
subschema at address 3. -/
def heap0 : Heap :=
  { cells :=
      [(0, [("properties", .dictRef 1), ("if", .dictRef 2), ("then", .dictRef 3)]),
       (1, [("x", .prim (.bool true))]),
       (2, [("properties", .dictRef 4)]),
       (3, []),
       (4, [("a", .prim (.bool true))])],
    next := 5 }

/-- The document's own `properties` dict (address 1) after the
`if`/`then`/`else` rewriting step ran on `heap0`'s root. -/
def propsAfterMerge : Option HDict :=
  match ifThenElseBranchH [] heap0 0 with
  | .ok (_, _, h) => heapGet h 1
  | .error _ => none

end DocHeap

/-- The schema `{"type": "string"}`, used as a tuple item. -/
def schemaStr : JVal := .obj [("type", .str "string")]

/-- The array schema with a 3-element `items` list and
`minItems = maxItems = 3` (arity pinned). -/
def fieldsTuplePinned : JDict :=
  [("type", .str "array"), ("items", .arr [schemaStr, schemaStr, schemaStr]),
   ("minItems", .int 3), ("maxItems", .int 3)]

/-- The same array schema with `minItems`/`maxItems` absent. -/
def fieldsTupleBare : JDict :=
  [("type", .str "array"), ("items", .arr [schemaStr, schemaStr, schemaStr])]

/-- A schema carrying both a single-string `type` and an `enum` whose values
are inconsistent with that type. -/
def fieldsEnumTyped : JDict :=
  [("type", .str "string"), ("enum", .arr [.int 1, .int 2])]

/-- An engine state whose translation cache already holds a node for the
URI `u`. -/
def stCached : EngineState := ⟨[("u", .builtinType "str" [])], [], []⟩

/-- A schema that is just `{"$ref": "u"}`. -/
def fieldsRefU : JDict := [("$ref", .str "u")]

/-- The schema `{"$id": "tag:x", "const": 1}`: an `$id` scope together with
a `const` early-return. -/
def fieldsIdConst : JVal := .obj [("$id", .str "tag:x"), ("const", .int 1)]

/-- The root schema `{"$ref": "a"}` over the cyclic document store
`cyclicApi`. -/
def cyclicRoot : JVal := .obj [("$ref", .str "a")]

/-- The schema `{"type": ["string", "integer"]}` of the claim-C8
scenario. -/
def fieldsTypeListSimple : JVal := .obj [("type", .arr [.str "string", .str "integer"])]

/-- A titled schema with an array-valued `type` whose `object` branch makes
the title removal observable in the synthesized struct name. -/
def fieldsTypeListTitled : JVal :=
  .obj [("title", .str "My Type"), ("type", .arr [.str "string", .str "object"]),
        ("properties", .obj [("x", .obj [("type", .str "integer")])])]

/-- A document store holding one referenced schema: URI `w` names
`{"type": "integer"}` with resolved scope `sw`. -/
def apiW : Api := ⟨[("w", ("sw", .obj [("type", .str "integer")]))], false⟩

theorem adictGet_adictSet_self {α : Type} (d : List (String × α)) (k : String) (v : α) :
    adictGet (adictSet d k v) k = some v := by
  induction d with
  | nil => simp [adictSet, adictGet]
  | cons kv rest ih =>
    by_cases hk : kv.1 = k
    · simp [adictSet, adictGet, hk]
    · simp [adictSet, adictGet, hk, ih]

theorem getTypeList_length (api : Api) :
    ∀ (xs : List JVal) (fuel : Nat) (st st' : EngineState) (r : List PType),
      getTypeList api fuel xs st = (.ok r, st') → r.length = xs.length := by
  intro xs
  induction xs with
  | nil =>
    intro fuel st st' r h
    cases fuel with
    | zero => simp [getTypeList, throwE] at h
    | succ n =>
      simp only [getTypeList, emPure] at h
      injection h with h1 h2
      injection h1 with h1
      subst h1
      rfl
  | cons x rest ih =>
    intro fuel st st' r h
    cases fuel with
    | zero => simp [getTypeList, throwE] at h
    | succ n =>
      simp only [getTypeList] at h
      cases hg : get_type api n x "Base" true st with
      | mk res1 st1 =>
        rw [hg] at h
        cases res1 with
        | error e => simp at h
        | ok t =>
          dsimp only [] at h
          cases hr : getTypeList api n rest st1 with
          | mk res2 st2 =>
            rw [hr] at h
            cases res2 with
            | error e => simp at h
            | ok ts =>
              dsimp only [] at h
              injection h with h1 h2
              injection h1 with h1
              subst h1
              simp [ih n st1 st2 ts hr]

theorem mapME_length {α β : Type} (f : α → Except Err β) :
    ∀ (xs : List α) (ys : List β), mapME f xs = .ok ys → ys.length = xs.length := by
  intro xs
  induction xs with
  | nil =>
    intro ys h
    simp only [mapME, Except.ok.injEq] at h
    cases h
    rfl
  | cons x rest ih =>
    intro ys h
    simp only [mapME] at h
    cases hf : f x with
    | error e => rw [hf] at h; cases h
    | ok y =>
      rw [hf] at h
      cases hm : mapME f rest with
      | error e => rw [hm] at h; cases h
      | ok zs =>
        rw [hm] at h
        cases h
        simp [ih zs hm]

/-- Claim C2: the source claims the resolver scope stack depth after any
translation call equals its depth before the call.  The code pops the `$id`
scope only on the fall-through path of `_get_type_internal`: on the `const`
early-return the pushed scope stays on the stack, so translating
`{"$id": "tag:x", "const": 1}` with an empty scope stack terminates with
the stack `["tag:x"]` — depth 1, not 0. -/
theorem claim2_scope_leak :
    runFresh api0 fieldsIdConst "Base" 10
      = (.ok (.literalType (.int 1) []),
         { refType := [], scopes := ["tag:x"], trace := [] })
    ∧ st0.scopes = [] :=
  ⟨rfl, rfl⟩

/-- Claim C3: the source claims `get_type` never modifies the input schema
mapping or any nested sub-mapping.  In the `if`/`then`/`else` rewriting the
branch schema shares the document's own `properties` dict, and
`then_propoerties.update(if_properties)` writes through that alias: after
the rewriting step on `heap0` (the document `{"properties": {"x": true},
"if": {"properties": {"a": true}}, "then": {}}`), the document's own
`properties` dict (heap address 1) has gained the key `"a"` — it held
exactly `[("x", true)]` before and holds `[("x", true), ("a", true)]`
after. -/
theorem claim3_document_mutation :
    DocHeap.propsAfterMerge
      = some [("x", DocHeap.HVal.prim (JVal.bool true)),
              ("a", DocHeap.HVal.prim (JVal.bool true))]
    ∧ DocHeap.heapGet DocHeap.heap0 1 = some [("x", DocHeap.HVal.prim (JVal.bool true))] :=
  ⟨rfl, rfl⟩

/-- Claim C6 (confirmed): translating the same schema twice, each run with a
freshly constructed engine over the same resolver contents, yields identical
output — result node and final engine state alike.  The embedded engine is a
pure function of the document store, the schema and the fuel, mirroring the
absence of any nondeterminism source in the Python code (no randomness, no
time, insertion-ordered dict iteration). -/
theorem claim6_determinism (api : Api) (schema : JVal) (pn : String) (fuel : Nat) :
    (translateTwiceFresh api schema pn fuel).1 = (translateTwiceFresh api schema pn fuel).2 :=
  rfl

/-- Claim C7 (confirmed): `items: false` and a single-string `type` naming
no handler raise hard failures that propagate (never the commented
placeholder), while the recognised primitive types succeed and the
recoverable malformations (no `type` at all, `array` without `items`) are
downgraded to commented nodes instead of failing. -/
theorem claim7_hard_failures :
    (runFresh api0 (.obj [("type", .str "array"), ("items", .bool false)]) "Base" 10).1
      = .error (.notImplemented "\x22items\x22: false is not supported")
    ∧ (runFresh api0 (.obj [("type", .str "frobnicate")]) "Base" 10).1
      = .error (.notImplemented
          ("Type `frobnicate` is not supported. If you think that this is an error, " ++
           "say something at " ++ ISSUE_URL))
    ∧ runFresh api0 (.obj [("type", .str "string")]) "Base" 10
      = (.ok (.builtinType "str" []), st0)
    ∧ runFresh api0 (.obj [("type", .str "integer")]) "Base" 10
      = (.ok (.builtinType "int" []), st0)
    ∧ runFresh api0 (.obj [("type", .str "boolean")]) "Base" 10
      = (.ok (.builtinType "bool" []), st0)
    ∧ runFresh api0 (.obj [("type", .str "null")]) "Base" 10
      = (.ok (.builtinType "None" []), st0)
    ∧ runFresh api0 (.obj [("type", .str "number")]) "Base" 10
      = (.ok (.combinedType (.nativeType "Union" "typing" [])
          [.builtinType "int" [], .builtinType "float" []] []), st0)
    ∧ (runFresh api0 (.obj []) "Base" 10).1
      = .ok (.typeAlias "_Base"
          (.builtinType "None" ["WARNING: we get an scheam without any type"])
          ["WARNING: we get an scheam without any type"] [])
    ∧ (runFresh api0 (.obj [("type", .str "array")]) "Base" 10).1
      = .ok (.typeAlias "_Base"
          (.builtinType "None" ["WARNING: we get an array without any items"])
          ["WARNING: we get an array without any items"] []) :=
  ⟨rfl, rfl, rfl, rfl, rfl, rfl, rfl, rfl, rfl⟩

/-- Claim C8 (confirmed): a schema whose `type` is a list of type strings
translates every element type against a title-stripped copy and unions the
per-element results in list order.  `{"type": ["string", "integer"]}` yields
the union of the `str` and `int` builtins in that order; with a `title` and
an `object` element, the struct synthesized inside the branch is named from
the proposed name (leading underscore, `"_MyTypeObject"`), not from the
removed title, while the outer alias still carries the title name. -/
theorem claim8_type_list_union :
    runFresh api0 fieldsTypeListSimple "Base" 10
      = (.ok (.combinedType (.nativeType "Union" "typing" [])
          [.builtinType "str" [], .builtinType "int" []] []), st0)
    ∧ runFresh api0 fieldsTypeListTitled "Base" 12
      = (.ok (.typeAlias "MyType"
          (.combinedType (.nativeType "Union" "typing" [])
            [.builtinType "str" [],
             .typedDictType "_MyTypeObject" [("x", .builtinType "int" [])] []
               requiredWarnLines]
            [])
          ["My Type"] []), st0) :=
  ⟨rfl, rfl⟩

/-- Claim C10 (confirmed): name synthesis is partial at the public
interface.  A schema whose title contains no ASCII letters or digits after
transliteration can make `get_name`'s leading-digit check index position 0
of an empty string: the empty title does exactly that and raises the index
error; and when the schema has no title and no proposed name is supplied
the `assert name is not None` fails. -/
theorem claim10_get_name_partial :
    get_name (some [("title", JVal.str "")]) none false = .error .indexError
    ∧ ((unidecode "").toList.all
        (fun c => !(pyIsAlpha c || (charRange '0' '9').contains c))) = true
    ∧ get_name (some [("x", JVal.int 1)]) none false = .error .assertionError
    ∧ get_name none none false = .error .assertionError :=
  ⟨rfl, rfl, rfl, rfl⟩

set_option maxHeartbeats 1600000 in
/-- Claim C1, counterexample: the claim says a lookup of a URI made while
the first translation of that URI is still in progress returns the cached
node instead of re-descending, so each distinct URI is translated at most
once and cyclic reference graphs terminate.  Over the two-document cycle
`a -> b -> a`, the observation log shows the translation of URI `a`
*beginning* five times within fuel 30 (the cache is only written after a
translation completes, so the in-progress lookups all miss), and the run
exhausts the fuel instead of terminating. -/
theorem claim1_counterexample :
    (runFresh cyclicApi cyclicRoot "Base" 16).2.trace = ["a", "b", "a", "b", "a"]
    ∧ (runFresh cyclicApi cyclicRoot "Base" 16).1 = .error .fuelExhausted
    ∧ 2 ≤ (["a", "b", "a", "b", "a"].count "a") :=
  ⟨rfl, rfl, by decide⟩

/-- Claim C1, amended: each `ref` call for a non-root `$ref` URI consults
the cache first; when the cache already holds a node for the URI the
identical cached node is returned with the engine state (cache, scope
stack, observation log) untouched, so completed translations are never
repeated; and on a cache miss whose translation succeeds the produced node
is stored in the cache before being returned, so later lookups share it.
(A lookup made while the first translation of the same URI is still in
progress misses the cache and re-descends — see the counterexample.) -/
theorem claim1_amended_theorem (api : Api) (n : Nat) (fields : JDict) (pn r : String)
    (st : EngineState) (t : PType)
    (href : adictGet fields "$ref" = some (.str r)) (hroot : r ≠ "#") :
    (adictGet st.refType r = some t → refHandler api (n+1) fields pn st = (.ok t, st))
    ∧ (adictGet st.refType r = none → r ≠ "" → ∀ (ty : PType) (st' : EngineState),
        refHandler api (n+1) fields pn st = (.ok ty, st') →
        adictGet st'.refType r = some ty) := by
  constructor
  · intro hhit
    simp only [refHandler, href, if_neg hroot, hhit]
  · intro hmiss hne ty st' hrun
    simp only [refHandler, href, if_neg hroot, hmiss] at hrun
    split at hrun
    · cases hrun
    · split at hrun
      · split at hrun
        · rename_i inner st3 heq
          rw [if_pos hne] at hrun
          injection hrun with h1 h2
          injection h1 with h1
          subst h1
          subst h2
          simp [adictGet_adictSet_self]
        · cases hrun
      · cases hrun

/-- Claim C1, witness: with the cache already holding a node for URI `u`,
`ref` on `{"$ref": "u"}` returns that node and leaves the state unchanged;
and after a successful cache-miss translation of URI `w`, the cache of the
final state maps `w` to the returned node. -/
theorem claim1_witness :
    refHandler api0 5 fieldsRefU "Base" stCached = (.ok (.builtinType "str" []), stCached)
    ∧ adictGet (⟨[("w", .builtinType "int" [])], [], ["w"]⟩ : EngineState).refType "w"
        = some (.builtinType "int" []) :=
  ⟨(claim1_amended_theorem api0 4 fieldsRefU "Base" "u" stCached (.builtinType "str" []) rfl
      (by decide)).1 rfl,
   (claim1_amended_theorem apiW 8 [("$ref", .str "w")] "Base" "w" st0 (.builtinType "str" []) rfl
      (by decide)).2 rfl (by decide) (.builtinType "int" [])
      ⟨[("w", .builtinType "int" [])], [], ["w"]⟩ rfl⟩

/-- Claim C4, counterexample: the claim says that with a 3-element `items`
list and `minItems`/`maxItems` both absent a warning comment is attached.
The code computes `{minItems, maxItems} - {None, len(items)}`, which is
empty when both keys are absent, so no warning comment is attached: the
translation of that schema is a bare 3-tuple whose comment list is empty. -/
theorem claim4_counterexample :
    runFresh api0 (.obj fieldsTupleBare) "Base" 15
      = (.ok (.combinedType (.nativeType "Tuple" "typing" [])
          [.builtinType "str" [], .builtinType "str" [], .builtinType "str" []] []), st0)
    ∧ (PType.combinedType (.nativeType "Tuple" "typing" [])
        [.builtinType "str" [], .builtinType "str" [], .builtinType "str" []] []).comments
      = [] :=
  ⟨rfl, rfl⟩

/-- Claim C4, amended: an `array` schema whose `items` is a list of `n`
subschemas translates to an `n`-arity tuple, and the warning comment is
attached exactly when `minItems` or `maxItems` is *present* with a value
different from `n`; in particular `minItems=3, maxItems=3` with a 3-element
list attaches no warning, and both keys absent also attaches no warning. -/
theorem claim4_amended_theorem (api : Api) (n : Nat) (fields : JDict) (pn : String)
    (st st' : EngineState) (xs : List JVal) (ty : PType)
    (hitems : adictGet fields "items" = some (.arr xs))
    (hrun : arrayHandler api (n+1) fields pn st = (.ok ty, st')) :
    ∃ subs : List PType, subs.length = xs.length ∧
      ty = .combinedType (.nativeType "Tuple" "typing" []) subs
        (if tupleWarn fields xs.length then tupleWarnLines else []) := by
  simp only [arrayHandler, hitems] at hrun
  split at hrun
  · cases hrun
  · rename_i inner st1 heq
    by_cases hwarn : tupleWarn fields xs.length = true
    · rw [if_pos hwarn] at hrun
      injection hrun with h1 h2
      injection h1 with h1
      subst h1
      exact ⟨inner, getTypeList_length api xs n st st1 inner heq, by simp [hwarn]⟩
    · rw [if_neg hwarn] at hrun
      injection hrun with h1 h2
      injection h1 with h1
      subst h1
      exact ⟨inner, getTypeList_length api xs n st st1 inner heq, by simp [hwarn]⟩

/-- Claim C4, witness: the pinned-arity scenario — a 3-element `items` list
with `minItems = maxItems = 3` — yields a 3-arity tuple with no warning
comment attached. -/
theorem claim4_witness :
    ∃ subs : List PType, subs.length = ([schemaStr, schemaStr, schemaStr] : List JVal).length ∧
      (PType.combinedType (.nativeType "Tuple" "typing" [])
        [.builtinType "str" [], .builtinType "str" [], .builtinType "str" []] [])
      = .combinedType (.nativeType "Tuple" "typing" []) subs
          (if tupleWarn fieldsTuplePinned ([schemaStr, schemaStr, schemaStr] : List JVal).length
           then tupleWarnLines else []) :=
  claim4_amended_theorem api0 7 fieldsTuplePinned "Base" st0 st0 [schemaStr, schemaStr, schemaStr]
    (.combinedType (.nativeType "Tuple" "typing" [])
      [.builtinType "str" [], .builtinType "str" [], .builtinType "str" []] []) rfl rfl

/-- Claim C5, counterexample: the claim says that for any list of distinct
enum values no two generated members share the same synthesized member
identifier.  The distinct values `"a b"` and `"a-b"` both normalize to the
member identifier `A_B`, and the generated declaration for an enum holding
both contains two member lines with that same identifier. -/
theorem claim5_counterexample :
    enumMemberName (.str "a b") = .ok "A_B"
    ∧ enumMemberName (.str "a-b") = .ok "A_B"
    ∧ ("a b" : String) ≠ "a-b"
    ∧ typeEnumDefinition "E" [.str "a b", .str "a-b"] []
      = .ok ["", "", "class E(Enum):", "    A_B = \x22a b\x22", "    A_B = \x22a-b\x22"] :=
  ⟨rfl, rfl, by decide, rfl⟩

/-- Claim C5, amended: the generated enumeration declaration contains
exactly one member line per enum value, in order (the member block is the
image of the value list under the member-line synthesis); distinct values
may however share a synthesized member identifier, since no deduplication
is performed. -/
theorem claim5_amended_theorem (name : String) (values : List JVal)
    (descriptions lines : List String)
    (h : typeEnumDefinition name values descriptions = .ok lines) :
    ∃ members : List String, mapME enumMemberLine values = .ok members ∧
      members.length = values.length ∧
      lines = ["", ""] ++ descriptions.map (fun d => "# " ++ d) ++
        ["class " ++ name ++ "(Enum):"] ++ members := by
  simp only [typeEnumDefinition] at h
  split at h
  · cases h
  · split at h
    · cases h
    · rename_i members hm
      injection h with h1
      exact ⟨members, hm, mapME_length enumMemberLine values members hm, h1.symm⟩

/-- Claim C5, witness: a two-value enum with one description produces the
header block followed by exactly two member lines, one per value in
order. -/
theorem claim5_witness :
    ∃ members : List String,
      mapME enumMemberLine [JVal.str "red", JVal.str "green"] = .ok members ∧
      members.length = ([JVal.str "red", JVal.str "green"] : List JVal).length ∧
      (["", "", "# desc", "class Foo(Enum):", "    RED = \x22red\x22",
        "    GREEN = \x22green\x22"] : List String)
        = ["", ""] ++ (["desc"] : List String).map (fun d => "# " ++ d) ++
          ["class " ++ "Foo" ++ "(Enum):"] ++ members :=
  claim5_amended_theorem "Foo" [.str "red", .str "green"] ["desc"]
    ["", "", "# desc", "class Foo(Enum):", "    RED = \x22red\x22", "    GREEN = \x22green\x22"] rfl

/-- Claim C9 (confirmed): whenever the schema carries an `enum` key,
`_get_type` dispatches the enum handler — the primitive handler named by
the `type` string is never invoked, whatever that string is (and even when
the enum values are inconsistent with the declared type). -/
theorem claim9_enum_precedence (api : Api) (n : Nat) (fields : JDict) (schemaType : JVal)
    (pn : String) (h : adictHas fields "enum" = true) :
    get_type_dispatch api (n+1) fields schemaType pn
      = applyHandler api n Handler.enum fields (titleOr fields pn) := by
  simp only [get_type_dispatch, h, if_true]
  rfl

/-- Claim C9, witness: the schema `{"type": "string", "enum": [1, 2]}` —
whose enum values are inconsistent with the declared `string` type — is
dispatched to the enum handler, which produces the named closed literal
set over exactly those values. -/
theorem claim9_witness :
    get_type_dispatch api0 6 fieldsEnumTyped (.str "string") "Base"
      = applyHandler api0 5 Handler.enum fieldsEnumTyped (titleOr fieldsEnumTyped "Base")
    ∧ applyHandler api0 5 Handler.enum fieldsEnumTyped (titleOr fieldsEnumTyped "Base") st0
      = (.ok (.typeEnum "_Base" [.int 1, .int 2] [] []), st0) :=
  ⟨claim9_enum_precedence api0 5 fieldsEnumTyped (.str "string") "Base" rfl, rfl⟩
